import Mathlib

/-!
Verification of the resume-rendering core of the Ai-Resume-Builder backend.

The development shallowly embeds the JavaScript source:

* JS objects with possibly-absent string fields become structures of
  `Option String` (a missing property reads as `undefined`, modelled `none`).
* A JS value sitting in the education array can also be `null`, `undefined`
  or a primitive; `EduValue` captures those cases.  Property access on
  `null`/`undefined` throws a `TypeError`, so fallible code returns
  `Except String`.
* JS string truthiness (`""` is falsy, every other string truthy) is made
  explicit in the `truthy` helpers.
* JS string methods `trim`, `split(",")` and `replace(/\*/g,"")` are
  embedded as structurally recursive functions over the character list of
  the string (`jsTrim`, `jsSplitComma`, `jsRemoveStars`), so that concrete
  instances evaluate inside the kernel.
* Template-literal assembly becomes explicit string concatenation, with the
  literal chunks transcribed from the source (literal braces are written
  with hex escapes).
-/

/-- Embedding of JS `String.prototype.trim`: drop whitespace from both ends
of the character list. -/
def jsTrim (s : String) : String :=
  String.mk (((s.data.dropWhile Char.isWhitespace).reverse.dropWhile
    Char.isWhitespace).reverse)

/-- Split a character list at each comma, the way JS `split(",")` does:
the empty list yields one empty segment. -/
def splitCommaChars : List Char → List (List Char)
  | [] => [[]]
  | c :: rest =>
      if c = ',' then [] :: splitCommaChars rest
      else
        match splitCommaChars rest with
        | seg :: segs => (c :: seg) :: segs
        | [] => [[c]]

/-- Embedding of JS `s.split(",")`. -/
def jsSplitComma (s : String) : List String :=
  (splitCommaChars s.data).map String.mk

/-- Embedding of JS `s.replace(/\*/g, "")`: remove every asterisk. -/
def jsRemoveStars (s : String) : String :=
  String.mk (s.data.filter (fun c => c ≠ '*'))

/-- Model of one education record as the frontend sends it: every field is an
optional string, a `none` meaning the property is absent. -/
structure EducationEntry where
  institute : Option String := none
  city : Option String := none
  eduType : Option String := none
  eduTypeOther : Option String := none
  department : Option String := none
  startYear : Option String := none
  endYear : Option String := none
  score : Option String := none
  scoreType : Option String := none
  deriving Repr, DecidableEq

/-- A JS value occurring as an element of the education array: `undefined`,
`null`, a (string) primitive, or an education record.  Property access on
`undef`/`nullv` throws; on a primitive it yields `undefined`. -/
inductive EduValue where
  | undef : EduValue
  | nullv : EduValue
  | prim : String → EduValue
  | obj : EducationEntry → EduValue
  deriving Repr, DecidableEq

/-- Embedding of the per-element arrow of `normalizeEducationArray`
(src/unnamed/part_001): `e.eduType === "Other" && e.eduTypeOther?.trim() ?
{ ...e, eduType: e.eduTypeOther.trim() } : e`.  Reading `e.eduType` on a
`null`/`undefined` element throws a `TypeError`; on a primitive the property
is `undefined`, the strict equality fails and the element passes through. -/
def normalizeEducationEntry : EduValue → Except String EduValue
  | .undef => .error "TypeError"
  | .nullv => .error "TypeError"
  | .prim s => .ok (.prim s)
  | .obj e =>
      if e.eduType = some "Other" then
        match e.eduTypeOther with
        | some s =>
            if jsTrim s ≠ "" then .ok (.obj { e with eduType := some (jsTrim s) })
            else .ok (.obj e)
        | none => .ok (.obj e)
      else .ok (.obj e)

/-- Embedding of `normalizeEducationArray` (src/unnamed/part_001):
`education.map(...)`, evaluated left to right, the first thrown `TypeError`
propagating. -/
def normalizeEducationArray : List EduValue → Except String (List EduValue)
  | [] => .ok []
  | v :: vs =>
      match normalizeEducationEntry v, normalizeEducationArray vs with
      | .ok v2, .ok vs2 => .ok (v2 :: vs2)
      | .error e, _ => .error e
      | _, .error e => .error e

/-- The trimmed override value that normalization substitutes for an entry,
if any: defined exactly when `eduType` is the literal "Other" and
`eduTypeOther` is non-blank after trimming. -/
def otherOverride (e : EducationEntry) : Option String :=
  match e.eduType, e.eduTypeOther with
  | some "Other", some s => if jsTrim s ≠ "" then some (jsTrim s) else none
  | _, _ => none

/-- Elementwise statement of the normalization claim: an entry with the
"Other" marker and a non-blank override maps to the same entry with
`eduType` replaced by the trimmed override; every other element passes
through unchanged. -/
def eduMapsTo (v v2 : EduValue) : Prop :=
  match v with
  | .obj e =>
      match otherOverride e with
      | some t => v2 = .obj { e with eduType := some t }
      | none => v2 = v
  | _ => v2 = v

/-- Boolean test: the element is a record whose `eduType` is the literal
"Other". -/
def isOtherTyped (v : EduValue) : Bool :=
  match v with
  | .obj e => e.eduType == some "Other"
  | _ => false

/-- Boolean test: if the element is a record marked "Other" then it carries a
usable override, i.e. `eduTypeOther` is non-blank after trimming and the
trimmed override is not itself the literal "Other". -/
def otherHasCleanOverride (v : EduValue) : Bool :=
  match v with
  | .obj e =>
      if e.eduType = some "Other" then
        match e.eduTypeOther with
        | some s => (jsTrim s != "") && (jsTrim s != "Other")
        | none => false
      else true
  | _ => true

/-- Boolean test: the element is neither `null` nor `undefined` (property
access on it cannot throw). -/
def notNullish (v : EduValue) : Bool :=
  match v with
  | .undef => false
  | .nullv => false
  | _ => true

/-- Boolean test: the element is malformed for normalization purposes — a
non-record primitive, or a record missing `eduType` or `eduTypeOther`. -/
def malformedEntry (v : EduValue) : Bool :=
  match v with
  | .prim _ => true
  | .obj e => e.eduType.isNone || e.eduTypeOther.isNone
  | _ => false

theorem otherOverride_eq_none (e : EducationEntry) (ht : e.eduType ≠ some "Other") :
    otherOverride e = none := by
  unfold otherOverride
  split
  · rename_i heq hother
    exact absurd heq ht
  · rfl

theorem normalizeEducationEntry_obj (e : EducationEntry) :
    normalizeEducationEntry (.obj e) =
      .ok (match otherOverride e with
            | some t => .obj { e with eduType := some t }
            | none => .obj e) := by
  by_cases ht : e.eduType = some "Other"
  · cases ho : e.eduTypeOther with
    | none => simp [normalizeEducationEntry, otherOverride, ht, ho]
    | some s =>
        by_cases hs : jsTrim s = ""
        · simp [normalizeEducationEntry, otherOverride, ht, ho, hs]
        · simp [normalizeEducationEntry, otherOverride, ht, ho, hs]
  · simp [normalizeEducationEntry, ht, otherOverride_eq_none e ht]

theorem normalizeEducationEntry_maps (v v2 : EduValue)
    (h : normalizeEducationEntry v = .ok v2) : eduMapsTo v v2 := by
  cases v with
  | undef => simp [normalizeEducationEntry] at h
  | nullv => simp [normalizeEducationEntry] at h
  | prim s =>
      simp [normalizeEducationEntry] at h
      simp [eduMapsTo, h]
  | obj e =>
      rw [normalizeEducationEntry_obj] at h
      cases hoo : otherOverride e with
      | none =>
          rw [hoo] at h
          simp at h
          simp [eduMapsTo, hoo, h]
      | some t =>
          rw [hoo] at h
          simp at h
          simp [eduMapsTo, hoo, h]

theorem otherOverride_eq_some (e : EducationEntry) (t : String)
    (h : otherOverride e = some t) :
    e.eduType = some "Other" ∧
      ∃ s, e.eduTypeOther = some s ∧ jsTrim s ≠ "" ∧ t = jsTrim s := by
  unfold otherOverride at h
  split at h
  · rename_i heq hother
    split at h
    · rename_i hs
      refine ⟨heq, ?_⟩
      exact ⟨_, hother, hs, ((Option.some.injEq _ _).mp h).symm⟩
    · exact absurd h (by simp)
  · exact absurd h (by simp)

theorem otherOverride_eq_none_of_missing (e : EducationEntry)
    (h : e.eduType.isNone || e.eduTypeOther.isNone) : otherOverride e = none := by
  unfold otherOverride
  split
  · rename_i heq hother
    rw [heq, hother] at h
    simp at h
  · rfl

theorem normalizeEducationEntry_no_other (v v2 : EduValue)
    (hg : otherHasCleanOverride v = true)
    (h : normalizeEducationEntry v = .ok v2) : isOtherTyped v2 = false := by
  cases v with
  | undef => simp [normalizeEducationEntry] at h
  | nullv => simp [normalizeEducationEntry] at h
  | prim s =>
      simp [normalizeEducationEntry] at h
      simp [isOtherTyped, ← h]
  | obj e =>
      rw [normalizeEducationEntry_obj] at h
      cases hoo : otherOverride e with
      | none =>
          rw [hoo] at h
          simp at h
          subst h
          simp only [isOtherTyped]
          by_cases ht : e.eduType = some "Other"
          · simp only [otherHasCleanOverride, ht, if_true] at hg
            cases ho : e.eduTypeOther with
            | none => rw [ho] at hg; simp at hg
            | some s =>
                rw [ho] at hg
                simp only [Bool.and_eq_true, bne_iff_ne, ne_eq] at hg
                have h2 : otherOverride e = some (jsTrim s) := by
                  unfold otherOverride
                  rw [ht, ho]
                  simp [hg.1]
                rw [hoo] at h2
                exact absurd h2 (by simp)
          · simpa using ht
      | some t =>
          rw [hoo] at h
          simp at h
          subst h
          obtain ⟨ht, s, ho, hs, hts⟩ := otherOverride_eq_some e t hoo
          simp only [otherHasCleanOverride, ht, if_true, ho,
            Bool.and_eq_true, bne_iff_ne, ne_eq] at hg
          simp [isOtherTyped, hts, hg.2]

theorem normalizeEducationEntry_fixpoint (v v2 : EduValue)
    (h : normalizeEducationEntry v = .ok v2) :
    normalizeEducationEntry v2 = .ok v2 := by
  cases v with
  | undef => simp [normalizeEducationEntry] at h
  | nullv => simp [normalizeEducationEntry] at h
  | prim s =>
      simp [normalizeEducationEntry] at h
      simp [normalizeEducationEntry, ← h]
  | obj e =>
      rw [normalizeEducationEntry_obj] at h
      cases hoo : otherOverride e with
      | none =>
          rw [hoo] at h
          simp at h
          subst h
          rw [normalizeEducationEntry_obj, hoo]
      | some t =>
          rw [hoo] at h
          simp at h
          subst h
          obtain ⟨ht, s, ho, hs, hts⟩ := otherOverride_eq_some e t hoo
          rw [normalizeEducationEntry_obj]
          by_cases htl : t = "Other"
          · have h2 : otherOverride { e with eduType := some t } = some (jsTrim s) := by
              unfold otherOverride
              simp only [htl, ho]
              simp [hs]
            rw [h2]
            subst hts
            simp
          · have h2 : otherOverride { e with eduType := some t } = none := by
              apply otherOverride_eq_none
              simpa using htl
            rw [h2]

theorem normalizeEducationEntry_ok_of_notNullish (v : EduValue)
    (h : notNullish v = true) : ∃ v2, normalizeEducationEntry v = .ok v2 := by
  cases v with
  | undef => simp [notNullish] at h
  | nullv => simp [notNullish] at h
  | prim s => exact ⟨.prim s, rfl⟩
  | obj e => exact ⟨_, normalizeEducationEntry_obj e⟩

theorem eduMapsTo_malformed (v v2 : EduValue)
    (hm : malformedEntry v = true) (h : eduMapsTo v v2) : v2 = v := by
  cases v with
  | undef => exact h
  | nullv => exact h
  | prim s => exact h
  | obj e =>
      simp only [malformedEntry] at hm
      have hoo : otherOverride e = none := otherOverride_eq_none_of_missing e hm
      simpa [eduMapsTo, hoo] using h

theorem normArray_ok_spec (l l2 : List EduValue)
    (h : normalizeEducationArray l = .ok l2) :
    l2.length = l.length ∧
    (∀ i (h1 : i < l.length) (h2 : i < l2.length),
      eduMapsTo (l.get ⟨i, h1⟩) (l2.get ⟨i, h2⟩)) ∧
    (l.all otherHasCleanOverride = true →
      l2.all (fun v => !(isOtherTyped v)) = true) := by
  induction l generalizing l2 with
  | nil =>
      simp [normalizeEducationArray] at h
      subst h
      refine ⟨rfl, ?_, ?_⟩
      · intro i h1 h2
        exact absurd h1 (Nat.not_lt_zero i)
      · intro _
        rfl
  | cons v vs ih =>
      cases hv : normalizeEducationEntry v with
      | error e => simp [normalizeEducationArray, hv] at h
      | ok v2 =>
          cases hvs : normalizeEducationArray vs with
          | error e => simp [normalizeEducationArray, hv, hvs] at h
          | ok vs2 =>
              simp [normalizeEducationArray, hv, hvs] at h
              subst h
              obtain ⟨ihlen, ihget, ihall⟩ := ih vs2 hvs
              refine ⟨by simp [ihlen], ?_, ?_⟩
              · intro i h1 h2
                cases i with
                | zero => exact normalizeEducationEntry_maps v v2 hv
                | succ n =>
                    simp only [List.get]
                    exact ihget n (Nat.lt_of_succ_lt_succ h1) (Nat.lt_of_succ_lt_succ h2)
              · intro hall
                simp only [List.all_cons, Bool.and_eq_true] at hall ⊢
                refine ⟨?_, ihall hall.2⟩
                simp [normalizeEducationEntry_no_other v v2 hall.1 hv]

theorem normArray_total (l : List EduValue) (h : l.all notNullish = true) :
    ∃ l2, normalizeEducationArray l = .ok l2 := by
  induction l with
  | nil => exact ⟨[], rfl⟩
  | cons v vs ih =>
      simp only [List.all_cons, Bool.and_eq_true] at h
      obtain ⟨v2, hv⟩ := normalizeEducationEntry_ok_of_notNullish v h.1
      obtain ⟨vs2, hvs⟩ := ih h.2
      exact ⟨v2 :: vs2, by simp [normalizeEducationArray, hv, hvs]⟩

/-- Boolean success test for the normalization result. -/
def normSucceeds (x : Except String (List EduValue)) : Bool :=
  match x with
  | .ok _ => true
  | .error _ => false

/-- Concrete education array used to witness the normalization claims. -/
def eduSampleIn : List EduValue :=
  [ .obj { eduType := some "Other", eduTypeOther := some " B.Tech " },
    .prim "loose",
    .obj { institute := some "MIT", eduType := some "MSc" } ]

/-- The result of normalizing `eduSampleIn`. -/
def eduSampleOut : List EduValue :=
  [ .obj { eduType := some "B.Tech", eduTypeOther := some " B.Tech " },
    .prim "loose",
    .obj { institute := some "MIT", eduType := some "MSc" } ]

/-- An entry marked "Other" whose override is blank: normalization passes it
through, so the output still contains an entry typed "Other". -/
def eduBlankOther : EduValue :=
  .obj { eduType := some "Other", eduTypeOther := some "  " }

/-- Concrete array of non-null malformed entries used to witness totality. -/
def eduMalformedIn : List EduValue :=
  [ .prim "loose", .obj { department := some "CS" }, .obj {} ]

/-- C1.  Amended: `normalizeEducationArray` maps each entry whose `eduType`
is the literal "Other" and whose `eduTypeOther` is non-blank after trimming
to the same entry with `eduType` replaced by the trimmed override, passes
every other entry through unchanged, and preserves order and length; the
resulting sequence contains no entry with `eduType == "Other"` provided
every "Other"-typed entry carries a non-blank override that does not itself
trim to "Other".  (The unconditional no-"Other" conclusion of the original
claim is false, see the counterexample.) -/
theorem normalizeEducation_maps_and_conditionally_no_other
    (l l2 : List EduValue) (h : normalizeEducationArray l = .ok l2) :
    l2.length = l.length ∧
    (∀ i (h1 : i < l.length) (h2 : i < l2.length),
      eduMapsTo (l.get ⟨i, h1⟩) (l2.get ⟨i, h2⟩)) ∧
    (l.all otherHasCleanOverride = true →
      l2.all (fun v => !(isOtherTyped v)) = true) :=
  normArray_ok_spec l l2 h

/-- C1 witness: the theorem applied to a concrete array. -/
theorem normalizeEducation_maps_witness :
    eduSampleOut.all (fun v => !(isOtherTyped v)) = true :=
  (normalizeEducation_maps_and_conditionally_no_other eduSampleIn eduSampleOut
    (by rfl)).2.2 (by decide)

/-- C1 counterexample: an "Other" entry with a blank override passes through
unchanged, so the normalized sequence still contains an entry with
`eduType == "Other"`, refuting the unconditional claim. -/
theorem normalizeEducation_keeps_blank_other :
    normalizeEducationArray [eduBlankOther] = .ok [eduBlankOther] ∧
    isOtherTyped eduBlankOther = true :=
  ⟨by rfl, by decide⟩

/-- C7.  `normalizeEducationArray` is idempotent: whenever it succeeds, its
output is a fixed point — normalizing twice equals normalizing once. -/
theorem normalizeEducation_idempotent (l l2 : List EduValue)
    (h : normalizeEducationArray l = .ok l2) :
    normalizeEducationArray l2 = .ok l2 := by
  induction l generalizing l2 with
  | nil =>
      simp [normalizeEducationArray] at h
      subst h
      rfl
  | cons v vs ih =>
      cases hv : normalizeEducationEntry v with
      | error e => simp [normalizeEducationArray, hv] at h
      | ok v2 =>
          cases hvs : normalizeEducationArray vs with
          | error e => simp [normalizeEducationArray, hv, hvs] at h
          | ok vs2 =>
              simp [normalizeEducationArray, hv, hvs] at h
              subst h
              simp [normalizeEducationArray,
                normalizeEducationEntry_fixpoint v v2 hv, ih vs2 hvs]

/-- C7 witness: the theorem applied to a concrete array. -/
theorem normalizeEducation_idempotent_witness :
    normalizeEducationArray eduSampleOut = .ok eduSampleOut :=
  normalizeEducation_idempotent eduSampleIn eduSampleOut (by rfl)

/-- C8.  Amended: `normalizeEducationArray` never throws on a sequence whose
elements are all non-nullish — records possibly missing `eduType` or
`eduTypeOther`, or bare primitives — and passes the malformed ones through
as-is; an element that is `null` or `undefined`, however, raises a
`TypeError` (see the counterexample). -/
theorem normalizeEducation_total_on_non_nullish (l : List EduValue)
    (h : l.all notNullish = true) :
    normSucceeds (normalizeEducationArray l) = true ∧
    ∀ l2, normalizeEducationArray l = .ok l2 →
      l2.length = l.length ∧
      ∀ i (h1 : i < l.length) (h2 : i < l2.length),
        malformedEntry (l.get ⟨i, h1⟩) = true → l2.get ⟨i, h2⟩ = l.get ⟨i, h1⟩ := by
  obtain ⟨l2, hl2⟩ := normArray_total l h
  refine ⟨by rw [hl2]; rfl, ?_⟩
  intro l2' hl2'
  obtain ⟨hlen, hget, _⟩ := normArray_ok_spec l l2' hl2'
  refine ⟨hlen, ?_⟩
  intro i h1 h2 hm
  exact eduMapsTo_malformed _ _ hm (hget i h1 h2)

/-- C8 witness: the theorem applied to a concrete array of malformed but
non-null entries. -/
theorem normalizeEducation_total_witness :
    normSucceeds (normalizeEducationArray eduMalformedIn) = true :=
  (normalizeEducation_total_on_non_nullish eduMalformedIn (by decide)).1

/-- C8 counterexample: a sequence containing a `null` element makes
`normalizeEducationArray` throw a `TypeError` instead of passing the element
through, refuting the no-error claim. -/
theorem normalizeEducation_throws_on_null :
    normalizeEducationArray [EduValue.nullv] = .error "TypeError" := by
  rfl

/-- Scan helper for substring search: does `pat` occur in the scanned list? -/
def csAux (pat : List Char) : List Char → Bool
  | [] => pat.isEmpty
  | c :: rest => pat.isPrefixOf (c :: rest) || csAux pat rest

/-- Substring test: `containsSub s pat = true` iff `pat` occurs contiguously
inside `s`.  Used to state that an assembled document does or does not
contain a fragment such as a section heading. -/
def containsSub (s pat : String) : Bool :=
  csAux pat.data s.data

theorem isPrefixOf_append_of_isPrefixOf {l s : List Char} (t : List Char)
    (h : l.isPrefixOf s = true) : l.isPrefixOf (s ++ t) = true := by
  rw [List.isPrefixOf_iff_prefix] at h ⊢
  exact h.trans (List.prefix_append s t)

theorem csAux_nil_pat (s : List Char) : csAux [] s = true := by
  cases s <;> simp [csAux, List.isPrefixOf]

theorem csAux_append_right {pat b : List Char} (a : List Char)
    (h : csAux pat b = true) : csAux pat (a ++ b) = true := by
  induction a with
  | nil => exact h
  | cons c rest ih =>
      simp only [List.cons_append, csAux, Bool.or_eq_true]
      exact Or.inr ih

theorem csAux_append_left {pat a : List Char} (b : List Char)
    (h : csAux pat a = true) : csAux pat (a ++ b) = true := by
  induction a with
  | nil =>
      simp only [csAux, List.isEmpty_eq_true] at h
      subst h
      exact csAux_nil_pat b
  | cons c rest ih =>
      simp only [csAux, Bool.or_eq_true] at h
      simp only [List.cons_append, csAux, Bool.or_eq_true]
      cases h with
      | inl h =>
          exact Or.inl (by
            have h2 := isPrefixOf_append_of_isPrefixOf b h
            simpa using h2)
      | inr h => exact Or.inr (ih h)

theorem containsSub_appL {a pat : String} (b : String)
    (h : containsSub a pat = true) : containsSub (a ++ b) pat = true := by
  unfold containsSub at h ⊢
  rw [String.data_append]
  exact csAux_append_left b.data h

theorem containsSub_appR {b pat : String} (a : String)
    (h : containsSub b pat = true) : containsSub (a ++ b) pat = true := by
  unfold containsSub at h ⊢
  rw [String.data_append]
  exact csAux_append_right a.data h

/-- Model of one experience record (fields optional strings). -/
structure ExperienceEntry where
  role : Option String := none
  company : Option String := none
  duration : Option String := none
  activities : Option String := none
  deriving Repr, DecidableEq

/-- Model of one project record.  `keyPoints` is an optional array of
strings. -/
structure ProjectEntry where
  name : Option String := none
  description : Option String := none
  link : Option String := none
  technologies : Option String := none
  keyPoints : Option (List String) := none
  deriving Repr, DecidableEq

/-- Model of one certificate record. -/
structure CertificateEntry where
  title : Option String := none
  issuedBy : Option String := none
  issuedOn : Option String := none
  credential : Option String := none
  deriving Repr, DecidableEq

/-- Model of one language record: a name and three ability flags. -/
structure LanguageEntry where
  language : Option String := none
  read : Bool := false
  write : Bool := false
  speak : Bool := false
  deriving Repr, DecidableEq

/-- The `skills` field as received: absent, a single comma-separated string,
or an array of strings. -/
inductive SkillsValue where
  | undef : SkillsValue
  | str : String → SkillsValue
  | arr : List String → SkillsValue
  deriving Repr, DecidableEq

/-- The resume form carried by an export request.  Optional string fields
model possibly-absent JS properties; the list-valued sections are optional
arrays. -/
structure ResumeForm where
  name : Option String := none
  role : Option String := none
  city : Option String := none
  state : Option String := none
  pincode : Option String := none
  emailId : Option String := none
  phoneNo : Option String := none
  linkedIn : Option String := none
  portfolioLink : Option String := none
  nationality : Option String := none
  availabilityType : Option String := none
  noticePeriod : Option String := none
  availableFromDate : Option String := none
  skills : SkillsValue := .undef
  education : Option (List EducationEntry) := none
  experience : Option (List ExperienceEntry) := none
  projects : Option (List ProjectEntry) := none
  certificates : Option (List CertificateEntry) := none
  languages : Option (List LanguageEntry) := none
  deriving Repr, DecidableEq

/-- Embedding of the template helper `safe = (v) => (v ? String(v) : "")`
for an optional string: an absent or empty value renders as "". -/
def safe (v : Option String) : String :=
  match v with
  | some s => s
  | none => ""

/-- The same helper applied to a value already known to be a string. -/
def safeStr (s : String) : String :=
  if s = "" then "" else s

/-- JS truthiness of an optional string: present and non-empty. -/
def truthy (v : Option String) : Bool :=
  match v with
  | some s => s != ""
  | none => false

/-- JS truthiness of `v && v.trim()`: present, non-empty, and non-blank
after trimming. -/
def truthyTrim (v : Option String) : Bool :=
  match v with
  | some s => (s != "") && (jsTrim s != "")
  | none => false

/-- Fixed head of the template of `buildResumeHtml`
(src/src/controllers/pdf.controller.js): doctype, stylesheet and the header
comment, up to the interpolation of the header fields.  Literal braces of
the CSS are written with hex escapes. -/
def htmlHead : String :=
  "\n<!DOCTYPE html>\n<html>\n<head>\n<meta charset=\"utf-8\"/>\n<style>\nbody \x7b font-family: Arial, sans-serif; padding: 40px; \x7d\nh1 \x7b font-size: 20px; font-weight: 600; margin-bottom: 4px; \x7d\nh2 \x7b font-size: 15px; font-weight: 700; margin-top: 20px; \x7d\np, span, li, div \x7b font-size: 12px; \x7d\nhr \x7b border: 1px solid #000; margin: 6px 0 10px; \x7d\n.section \x7b margin-bottom: 10px; \x7d\n.flex-between \x7b display: flex; justify-content: space-between; \x7d\nul \x7b padding-left: 18px; margin-top: 4px; \x7d\n</style>\n</head>\n\n<body>\n\n<!-- HEADER -->\n"

/-- Header block of `buildResumeHtml`: name, role, and the location line
with conditional separators. -/
def headerFrag (form : ResumeForm) : String :=
  "<div style=\"text-align:center; margin-bottom:20px;\">\n  <h1>" ++ safe form.name
    ++ "</h1>\n  <div>" ++ safe form.role ++ "</div>\n  <div>\n    "
    ++ safe form.city ++ ", " ++ safe form.state ++ ", " ++ safe form.pincode
    ++ "\n    " ++ (if truthy form.emailId then " | " ++ safe form.emailId else "")
    ++ "\n    " ++ (if truthy form.phoneNo then " | " ++ safe form.phoneNo else "")
    ++ "\n    " ++ (if truthy form.linkedIn then " | " ++ safe form.linkedIn else "")
    ++ "\n  </div>\n</div>"

/-- Summary block of `buildResumeHtml`: rendered only when the cleaned
summary string is truthy. -/
def summaryFrag (cleanSummary : String) : String :=
  if cleanSummary != "" then
    "\n<div class=\"section\">\n  <h2>SUMMARY</h2>\n  <hr/>\n  <p>"
      ++ cleanSummary ++ "</p>\n</div>"
  else ""

/-- The guard `hasExperience` of `buildResumeHtml`:
`form.experience?.some((e) => e.role || e.company || e.duration || e.activities)`. -/
def hasExperience (form : ResumeForm) : Bool :=
  match form.experience with
  | some l => l.any (fun e =>
      truthy e.role || truthy e.company || truthy e.duration || truthy e.activities)
  | none => false

/-- One experience item of `buildResumeHtml`. -/
def experienceItem (e : ExperienceEntry) : String :=
  "\n<div style=\"margin-bottom:10px;\">\n  <div class=\"flex-between\">\n    <strong>"
    ++ safe e.role ++ "</strong>\n    <span>" ++ safe e.duration
    ++ " Year</span>\n  </div>\n  <div>Company: " ++ safe e.company ++ "</div>\n  "
    ++ (if truthy e.activities then "<p>" ++ safe e.activities ++ "</p>" else "")
    ++ "\n</div>"

/-- Experience section of `buildResumeHtml`: suppressed unless some entry
has a truthy field; entries are filtered to those with a role or company. -/
def experienceFrag (form : ResumeForm) : String :=
  if hasExperience form then
    "\n<div class=\"section\">\n<h2>EXPERIENCE</h2>\n<hr/>\n"
      ++ String.join ((((form.experience).getD []).filter
            (fun e => truthy e.role || truthy e.company)).map experienceItem)
      ++ "\n</div>"
  else ""

/-- The guard `hasProjects` of `buildResumeHtml`:
`form.projects?.some((p) => p.name || p.description || p.technologies)`. -/
def hasProjects (form : ResumeForm) : Bool :=
  match form.projects with
  | some l => l.any (fun p =>
      truthy p.name || truthy p.description || truthy p.technologies)
  | none => false

/-- Key-points sublist of one project item: rendered only when at least one
key point is non-blank after trimming. -/
def keyPointsFrag (p : ProjectEntry) : String :=
  match p.keyPoints with
  | none => ""
  | some kl =>
      let filtered := kl.filter (fun k => (k != "") && (jsTrim k != ""))
      if filtered.length != 0 then
        "<ul>\n        "
          ++ String.join (filtered.map (fun k => "<li>" ++ safeStr k ++ "</li>"))
          ++ "\n      </ul>"
      else ""

/-- One project item of `buildResumeHtml`. -/
def projectItem (p : ProjectEntry) : String :=
  "\n<div style=\"margin-bottom:10px;\">\n  <div class=\"flex-between\">\n    <strong>"
    ++ safe p.name ++ "</strong>\n    "
    ++ (if truthy p.link then
          "<a href=" ++ safe p.link ++ " target=\"_blank\">Live Demo</a>"
        else "")
    ++ "\n  </div>\n  "
    ++ (if truthy p.description then "<p>" ++ safe p.description ++ "</p>" else "")
    ++ "\n  " ++ keyPointsFrag p ++ "\n  "
    ++ (if truthy p.technologies then
          "<p><strong>Tech Used:</strong> " ++ safe p.technologies ++ "</p>"
        else "")
    ++ "\n</div>"

/-- Projects section of `buildResumeHtml`: suppressed unless some project
has a name, description or technologies; entries filtered to named ones. -/
def projectsFrag (form : ResumeForm) : String :=
  if hasProjects form then
    "\n<div class=\"section\">\n<h2>PROJECTS</h2>\n<hr/>\n"
      ++ String.join ((((form.projects).getD []).filter
            (fun p => truthy p.name)).map projectItem)
      ++ "\n</div>"
  else ""

/-- One education item of `buildResumeHtml`. -/
def educationItem (e : EducationEntry) : String :=
  "\n<div style=\"margin-bottom:10px;\">\n  <div class=\"flex-between\">\n    <strong>"
    ++ safe e.institute ++ "</strong>\n    <span>" ++ safe e.startYear ++ " - "
    ++ safe e.endYear ++ "</span>\n  </div>\n  <div>\n    " ++ safe e.eduType
    ++ "\n    "
    ++ (if truthy e.department then " — " ++ safe e.department else "")
    ++ "\n    "
    ++ (if truthy e.score then
          " — " ++ safe e.scoreType ++ ": " ++ safe e.score
        else "")
    ++ "\n  </div>\n</div>"

/-- Body of the education section of `buildResumeHtml`:
`form.education?.map(...).join("")`.  An absent education array
short-circuits the optional chain to `undefined`, which the template
interpolates as the string "undefined". -/
def educationBody (edu : Option (List EducationEntry)) : String :=
  match edu with
  | none => "undefined"
  | some l => String.join (l.map educationItem)

/-- Education section of `buildResumeHtml`: emitted unconditionally — the
heading is not guarded by any presence test. -/
def educationSection (edu : Option (List EducationEntry)) : String :=
  "<div class=\"section\">\n<h2>EDUCATION</h2>\n<hr/>\n"
    ++ educationBody edu ++ "\n</div>"

/-- The guard `hasSkills` of `buildResumeHtml`:
`Array.isArray(form.skills) && form.skills.some((s) => s && s.trim())`.
A string-valued skills field fails the array test. -/
def hasSkills (sk : SkillsValue) : Bool :=
  match sk with
  | .arr l => l.any (fun s => (s != "") && (jsTrim s != ""))
  | _ => false

/-- The underlying array of the skills value ("" when not an array; only
reached under the `hasSkills` guard). -/
def skillsArr (sk : SkillsValue) : List String :=
  match sk with
  | .arr l => l
  | _ => []

/-- Skills section of `buildResumeHtml`: `form.skills.filter(Boolean).join(", ")`
under the `hasSkills` guard. -/
def skillsFrag (form : ResumeForm) : String :=
  if hasSkills form.skills then
    "\n<div class=\"section\">\n<h2>SKILLS</h2>\n<hr/>\n<div>\n"
      ++ String.intercalate ", " ((skillsArr form.skills).filter (fun s => s != ""))
      ++ "\n</div>\n</div>"
  else ""

/-- The guard `hasCertificates` of `buildResumeHtml`. -/
def hasCertificates (form : ResumeForm) : Bool :=
  match form.certificates with
  | some l => l.any (fun c => truthy c.title || truthy c.issuedBy || truthy c.issuedOn)
  | none => false

/-- One certificate item of `buildResumeHtml`. -/
def certificateItem (c : CertificateEntry) : String :=
  "\n<div style=\"margin-bottom:10px;\">\n  <div class=\"flex-between\">\n    <strong>"
    ++ safe c.title ++ "</strong>\n    <span>" ++ safe c.issuedOn
    ++ "</span>\n  </div>\n  <div>" ++ safe c.issuedBy ++ "</div>\n</div>"

/-- Certificates section of `buildResumeHtml`: suppressed unless some
certificate has a title, issuer or issue date; entries filtered to titled
ones. -/
def certificatesFrag (form : ResumeForm) : String :=
  if hasCertificates form then
    "\n<div class=\"section\">\n<h2>CERTIFICATES</h2>\n<hr/>\n"
      ++ String.join ((((form.certificates).getD []).filter
            (fun c => truthy c.title)).map certificateItem)
      ++ "\n</div>"
  else ""

/-- The guard `hasLanguages` of `buildResumeHtml`:
`form.languages?.some((l) => l.language && l.language.trim())`. -/
def hasLanguages (form : ResumeForm) : Bool :=
  match form.languages with
  | some l => l.any (fun lg => truthyTrim lg.language)
  | none => false

/-- One language item: the name and the parenthesized list of the abilities
that are set. -/
def languageItem (lg : LanguageEntry) : String :=
  safe lg.language ++ " ("
    ++ String.intercalate ", "
        ((if lg.read then ["Read"] else [])
          ++ (if lg.write then ["Write"] else [])
          ++ (if lg.speak then ["Speak"] else []))
    ++ ")"

/-- Languages block of the additional-information section. -/
def languagesFrag (form : ResumeForm) : String :=
  if hasLanguages form then
    "\n<div>\n<strong>Languages:</strong>\n"
      ++ String.intercalate ", " ((((form.languages).getD []).filter
            (fun lg => truthy lg.language)).map languageItem)
      ++ "\n</div>"
  else ""

/-- The guard `hasAdditional` of `buildResumeHtml`. -/
def hasAdditional (form : ResumeForm) : Bool :=
  hasLanguages form || truthyTrim form.nationality || truthyTrim form.availabilityType

/-- Nationality line of the additional-information section. -/
def nationalityFrag (form : ResumeForm) : String :=
  if truthy form.nationality then
    "<div><strong>Nationality:</strong> " ++ safe form.nationality ++ "</div>"
  else ""

/-- Availability line of the additional-information section. -/
def availabilityFrag (form : ResumeForm) : String :=
  if truthy form.availabilityType then
    "<div><strong>Availability:</strong> " ++ safe form.availabilityType ++ "</div>"
  else ""

/-- Additional-information section of `buildResumeHtml`. -/
def additionalFrag (form : ResumeForm) : String :=
  if hasAdditional form then
    "\n<div class=\"section\">\n<h2>ADDITIONAL INFORMATION</h2>\n<hr/>\n"
      ++ languagesFrag form ++ "\n\n" ++ nationalityFrag form ++ "\n\n"
      ++ availabilityFrag form ++ "\n\n</div>"
  else ""

/-- The value the template interpolates for `${console.log("PDF Exported")}`:
`console.log` returns `undefined`, which stringifies to "undefined". -/
def consoleLogPdfExported : String := "undefined"

/-- Embedding of `buildResumeHtml`
(src/src/controllers/pdf.controller.js, lines 86-290): the template literal
written as the concatenation of its fixed chunks and interpolations, in
source order. -/
def buildResumeHtml (form : ResumeForm) (cleanSummary : String) : String :=
  htmlHead ++ headerFrag form
    ++ "\n\n<!-- SUMMARY -->\n" ++ summaryFrag cleanSummary
    ++ "\n\n<!-- EXPERIENCE -->\n" ++ experienceFrag form
    ++ "\n\n<!-- PROJECTS -->\n" ++ projectsFrag form
    ++ "\n\n<!-- EDUCATION -->\n" ++ educationSection form.education
    ++ "\n\n<!-- SKILLS -->\n" ++ skillsFrag form
    ++ "\n\n<!-- CERTIFICATES -->\n" ++ certificatesFrag form
    ++ "\n\n<!-- ADDITIONAL INFORMATION -->\n" ++ additionalFrag form
    ++ "\n\n</body>\n</html>\n" ++ consoleLogPdfExported ++ "\n"

/-- One education item of the legacy `/pdf/export` handler template
(src/server.js, lines 435-447). -/
def serverEducationItem (e : EducationEntry) : String :=
  "\n      <div class=\"mb-12\">\n        <div class=\"flex-between\" style=\"font-weight:600;\">\n          <span style=\"color:#2B2B2B;\">"
    ++ safe e.institute ++ "</span>\n          <span>" ++ safe e.startYear
    ++ " - " ++ safe e.endYear
    ++ "</span>\n        </div>\n        <div style=\"display:flex; gap:4px; margin-top:4px;\">\n          <span>"
    ++ safe e.eduType ++ "</span>\n          <span>" ++ safe e.department
    ++ ".</span>\n          <span>" ++ safe e.scoreType ++ ":</span>\n          <span>"
    ++ safe e.score ++ "</span>\n        </div>\n      </div>"

/-- Body of the education section of the legacy handler (src/server.js,
lines 431-451): `(form.education && form.education.length) ? ...map(...)
.join("") : "<p>No education details</p>"`. -/
def serverEducationBody (edu : Option (List EducationEntry)) : String :=
  match edu with
  | some l =>
      if l.length != 0 then String.join (l.map serverEducationItem)
      else "<p>No education details</p>"
  | none => "<p>No education details</p>"

/-- Education section of the legacy handler (src/server.js, lines 427-452):
always emitted, with a literal placeholder when the array is empty or
missing. -/
def serverEducationSection (edu : Option (List EducationEntry)) : String :=
  "  <div class=\"section\">\n    <h2>EDUCATION</h2>\n    <hr/>\n    "
    ++ serverEducationBody edu ++ "\n  </div>"

/-- Skills normalization of the legacy handler (src/server.js, lines
455-464): an array is filtered to truthy non-blank entries; a string is
split on ",", each piece trimmed, empty pieces dropped; anything else
yields the empty sequence. -/
def serverSkills (sk : SkillsValue) : List String :=
  match sk with
  | .arr l => l.filter (fun s => (s != "") && (jsTrim s != ""))
  | .str s => ((jsSplitComma s).map jsTrim).filter (fun x => x != "")
  | .undef => []

/-- Skills section of the legacy handler (src/server.js, lines 465-476):
suppressed when the normalized sequence is empty. -/
def serverSkillsSection (sk : SkillsValue) : String :=
  let skills := serverSkills sk
  if skills.length != 0 then
    "\n      <div class=\"section\">\n        <h2>SKILLS</h2>\n        <hr/>\n        <div style=\"display:flex; flex-wrap:wrap; gap:8px; margin-bottom:20px;\">\n          <span>"
      ++ String.intercalate ", " skills ++ "</span>\n        </div>\n      </div>\n    "
  else ""

theorem trailing_undefined_of_chain (x : String) :
    ∃ pre, ((x ++ "\n\n</body>\n</html>\n") ++ consoleLogPdfExported) ++ "\n"
      = pre ++ "</html>\nundefined\n" := by
  refine ⟨x ++ "\n\n</body>\n", ?_⟩
  rw [String.append_assoc x "\n\n</body>\n</html>\n" consoleLogPdfExported]
  rw [String.append_assoc x _ "\n"]
  rw [String.append_assoc x "\n\n</body>\n" "</html>\nundefined\n"]
  rfl

/-- C10.  For every form and cleaned summary, the markup returned by
`buildResumeHtml` ends, after the closing html tag, with the literal text
"undefined" followed by a newline: the template interpolates
`${console.log("PDF Exported")}` whose value is `undefined`, so the
document always carries this trailing content outside the html element. -/
theorem buildResumeHtml_trailing_undefined (form : ResumeForm) (cleanSummary : String) :
    ∃ pre, buildResumeHtml form cleanSummary = pre ++ "</html>\nundefined\n" := by
  unfold buildResumeHtml
  exact trailing_undefined_of_chain _

/-- C2.  Amended: `buildResumeHtml` always emits the "EDUCATION" heading
(the section is unconditional), but an empty education sequence yields the
heading with an empty body and no placeholder; only the legacy server.js
handler renders a placeholder for an empty or missing education array, and
its literal reads "No education details". -/
theorem education_always_rendered (form : ResumeForm) (cleanSummary : String) :
    containsSub (buildResumeHtml form cleanSummary) "<h2>EDUCATION</h2>" = true ∧
    educationSection (some []) =
      "<div class=\"section\">\n<h2>EDUCATION</h2>\n<hr/>\n\n</div>" ∧
    containsSub (serverEducationSection none) "No education details" = true ∧
    containsSub (serverEducationSection (some [])) "No education details" = true := by
  refine ⟨?_, by rfl, by decide, by decide⟩
  unfold buildResumeHtml
  apply containsSub_appL
  apply containsSub_appL
  apply containsSub_appL
  apply containsSub_appL
  apply containsSub_appL
  apply containsSub_appL
  apply containsSub_appL
  apply containsSub_appL
  apply containsSub_appL
  apply containsSub_appR
  unfold educationSection
  apply containsSub_appL
  apply containsSub_appL
  decide

/-- A form whose education sequence is present but empty, all other fields
absent. -/
def emptyEduForm : ResumeForm := { education := some [] }

set_option maxRecDepth 40000 in
/-- C2 counterexample: with an empty education sequence, the document
assembled by `buildResumeHtml` contains no "no education details"
placeholder (in either capitalization) after the heading — the claimed
placeholder exists only in the legacy server.js handler. -/
theorem education_empty_no_placeholder :
    containsSub (buildResumeHtml emptyEduForm "") "no education details" = false ∧
    containsSub (buildResumeHtml emptyEduForm "") "No education details" = false := by
  constructor
  · decide
  · decide

/-- C3.  Amended: the comma-split-trim-drop normalization of a string-valued
skills field belongs to the legacy server.js handler — there the example
string yields exactly ["Go","Python","Rust"] and a rendered Skills section —
while `buildResumeHtml` in pdf.controller.js requires `Array.isArray`, so a
string-valued skills field produces an empty skills fragment (no Skills
section) in the controller pipeline. -/
theorem skills_string_normalization :
    serverSkills (.str "Go, Python,  , Rust") = ["Go", "Python", "Rust"] ∧
    containsSub (serverSkillsSection (.str "Go, Python,  , Rust")) "<h2>SKILLS</h2>" = true ∧
    ∀ (form : ResumeForm) (s : String), form.skills = .str s → skillsFrag form = "" := by
  refine ⟨by decide, by decide, ?_⟩
  intro form s h
  unfold skillsFrag
  rw [h]
  rfl

/-- A form carrying skills as a single comma-separated string. -/
def stringSkillsForm : ResumeForm := { skills := .str "Go, Python,  , Rust" }

/-- C3 witness: the theorem applied to a concrete form with string-valued
skills. -/
theorem skills_string_normalization_witness :
    skillsFrag stringSkillsForm = "" :=
  skills_string_normalization.2.2 stringSkillsForm "Go, Python,  , Rust" rfl

set_option maxRecDepth 40000 in
/-- C3 counterexample: a form whose skills field is the non-blank string
"Go, Python,  , Rust" produces a document from `buildResumeHtml` with no
rendered Skills section at all, refuting the claim that the rendering
pipeline still renders the section for string-valued skills. -/
theorem skills_string_suppressed_in_controller :
    containsSub (buildResumeHtml stringSkillsForm "") "<h2>SKILLS</h2>" = false := by
  decide

/-- Elementwise education normalization restricted to record entries — the
shape the export handlers feed it (the request form carries an array of
records).  Agrees with `normalizeEducationArray` on record lists, see
`normalizeEducationEntries_coherent`. -/
def normalizeEducationEntries (l : List EducationEntry) : List EducationEntry :=
  l.map (fun e =>
    match otherOverride e with
    | some t => { e with eduType := some t }
    | none => e)

theorem normalizeEducationEntries_coherent (l : List EducationEntry) :
    normalizeEducationArray (l.map .obj) =
      .ok ((normalizeEducationEntries l).map .obj) := by
  induction l with
  | nil => rfl
  | cons e es ih =>
      simp only [List.map_cons, normalizeEducationArray, ih,
        normalizeEducationEntry_obj, normalizeEducationEntries]
      cases otherOverride e <;> simp

/-- The `form.name || "resume"` fallback of the filename derivation
(src/src/controllers/pdf.controller.js, line 59): an absent or empty name
falls back to the literal "resume". -/
def fileBase (name : Option String) : String :=
  match name with
  | some s => if s = "" then "resume" else s
  | none => "resume"

/-- The `.replace(/[^a-zA-Z0-9_-]/g, "_").substring(0, 40)` steps of the
filename derivation (src/src/controllers/pdf.controller.js, lines 60-61):
every character outside the alphanumeric/hyphen/underscore set becomes an
underscore, then the result is truncated to forty characters. -/
def fileStem (name : Option String) : String :=
  String.mk (((fileBase name).data.map (fun c =>
    if c.isAlphanum || c == '-' || c == '_' then c else '_')).take 40)

/-- Embedding of the filename derivation of `exportPdf`
(src/src/controllers/pdf.controller.js, lines 58-61):
`(form.name || "resume").replace(/[^a-zA-Z0-9_-]/g, "_").substring(0, 40) + ".pdf"`. -/
def deriveFileName (name : Option String) : String :=
  fileStem name ++ ".pdf"

/-- Outcomes of the four effectful engine steps a request can hit:
`getBrowser()`, `browser.newPage()`, `page.setContent(...)` and
`page.pdf(...)` (the last returning the PDF bytes). -/
structure EngineEnv where
  launch : Except String Unit
  newPage : Except String Unit
  setContent : Except String Unit
  pdfRender : Except String (List Nat)
  deriving Repr

/-- The HTTP response of an export handler: status, error envelope fields,
and on success the derived filename and the binary body. -/
structure ExportResponse where
  status : Nat
  error : Option String
  details : Option String
  fileName : Option String
  body : Option (List Nat)
  deriving Repr, DecidableEq

/-- Observable side effects of one export request: whether education
normalization ran, the assembled markup (when assembly was reached), how
many engine launches were attempted, and whether an engine instance is
still open when the handler returns. -/
structure ExportTrace where
  normalized : Bool
  assembledHtml : Option String
  launchAttempts : Nat
  browserOpenAtEnd : Bool
  deriving Repr, DecidableEq

/-- Embedding of the `exportPdf` handler
(src/src/controllers/pdf.controller.js, lines 7-81).  The body validates
`form`, normalizes education, cleans the summary, assembles the markup,
launches the engine inside its own try/catch (distinct 500 on failure), and
then runs newPage/setContent/pdf; a throw in those steps reaches the outer
catch with the generic message while the browser — closed only after a
successful `page.pdf` — stays open.  An empty PDF is reported distinctly
after the close. -/
def exportPdf (env : EngineEnv) (reqForm : Option ResumeForm)
    (gensummary : Option String) : ExportResponse × ExportTrace :=
  match reqForm with
  | none =>
      (⟨400, some "Form data missing", none, none, none⟩,
       ⟨false, none, 0, false⟩)
  | some form =>
      let form2 := { form with
        education := some (normalizeEducationEntries (form.education.getD [])) }
      let cleanSummary := jsRemoveStars (gensummary.getD "")
      let html := buildResumeHtml form2 cleanSummary
      match env.launch with
      | .error _ =>
          (⟨500, some "Failed to launch browser", none, none, none⟩,
           ⟨true, some html, 1, false⟩)
      | .ok _ =>
          match env.newPage with
          | .error msg =>
              (⟨500, some "PDF generation failed", some msg, none, none⟩,
               ⟨true, some html, 1, true⟩)
          | .ok _ =>
              match env.setContent with
              | .error msg =>
                  (⟨500, some "PDF generation failed", some msg, none, none⟩,
                   ⟨true, some html, 1, true⟩)
              | .ok _ =>
                  match env.pdfRender with
                  | .error msg =>
                      (⟨500, some "PDF generation failed", some msg, none, none⟩,
                       ⟨true, some html, 1, true⟩)
                  | .ok bytes =>
                      if bytes.length = 0 then
                        (⟨500, some "Generated PDF is empty", none, none, none⟩,
                         ⟨true, some html, 1, false⟩)
                      else
                        (⟨200, none, none, some (deriveFileName form.name), some bytes⟩,
                         ⟨true, some html, 1, false⟩)

/-- Embedding of the legacy `/pdf/export` handler (src/server.js, lines
240-685).  It dereferences `form.education` to normalize BEFORE its
`if (!form)` check, so a missing form throws a `TypeError` that the outer
catch converts to the generic 500 — the 400 branch is unreachable for the
input it guards.  The handler template is pure string assembly (its
education and skills fragments are modelled by `serverEducationSection` and
`serverSkillsSection`); the engine steps mirror `exportPdf` with the
launch-failure literal "Failed to launch Chromium". -/
def serverPdfExport (env : EngineEnv) (reqForm : Option ResumeForm)
    (gensummary : Option String) : ExportResponse × ExportTrace :=
  match reqForm with
  | none =>
      (⟨500, some "PDF generation failed", some "TypeError", none, none⟩,
       ⟨false, none, 0, false⟩)
  | some form =>
      let form2 := { form with
        education := some (normalizeEducationEntries (form.education.getD [])) }
      let cleanSummary := jsRemoveStars (gensummary.getD "")
      let html := serverEducationSection form2.education
        ++ serverSkillsSection form2.skills
      match env.launch with
      | .error _ =>
          (⟨500, some "Failed to launch Chromium", none, none, none⟩,
           ⟨true, some html, 1, false⟩)
      | .ok _ =>
          match env.newPage with
          | .error msg =>
              (⟨500, some "PDF generation failed", some msg, none, none⟩,
               ⟨true, some html, 1, true⟩)
          | .ok _ =>
              match env.setContent with
              | .error msg =>
                  (⟨500, some "PDF generation failed", some msg, none, none⟩,
                   ⟨true, some html, 1, true⟩)
              | .ok _ =>
                  match env.pdfRender with
                  | .error msg =>
                      (⟨500, some "PDF generation failed", some msg, none, none⟩,
                       ⟨true, some html, 1, true⟩)
                  | .ok bytes =>
                      if bytes.length = 0 then
                        (⟨500, some "Generated PDF is empty", none, none, none⟩,
                         ⟨true, some html, 1, false⟩)
                      else
                        (⟨200, none, none, some (deriveFileName form.name), some bytes⟩,
                         ⟨true, some html, 1, false⟩)

/-- An environment in which every engine step succeeds. -/
def okEnv : EngineEnv :=
  ⟨.ok (), .ok (), .ok (), .ok [37, 80, 68, 70]⟩

/-- An environment in which the engine launch itself throws. -/
def launchFailEnv : EngineEnv :=
  ⟨.error "spawn chromium ENOENT", .ok (), .ok (), .ok [37, 80, 68, 70]⟩

/-- An environment in which `browser.newPage()` throws after a successful
launch. -/
def newPageFailEnv : EngineEnv :=
  ⟨.ok (), .error "newPage crashed", .ok (), .ok [37, 80, 68, 70]⟩

/-- An environment in which `page.setContent(...)` throws after a
successful launch. -/
def setContentFailEnv : EngineEnv :=
  ⟨.ok (), .ok (), .error "setContent crashed", .ok [37, 80, 68, 70]⟩

/-- An environment in which `page.pdf(...)` throws after a successful
launch. -/
def pdfFailEnv : EngineEnv :=
  ⟨.ok (), .ok (), .ok (), .error "pdf crashed"⟩

/-- A small concrete form used to exercise the handlers. -/
def sampleForm : ResumeForm :=
  { name := some "Ada Lovelace", education := some [] }

/-- C4.  The claim holds for the controller handler: a request without a
form gets 400 with the exact error envelope and no normalization, assembly
or launch; but the legacy server.js handler dereferences `form.education`
before its own missing-form check, so the same request gets the generic
500 there — the code contradicts its own (dead) 400 guard. -/
theorem missing_form_is_400_in_controller_500_in_server
    (env : EngineEnv) (gensummary : Option String) :
    (exportPdf env none gensummary).1 =
      ⟨400, some "Form data missing", none, none, none⟩ ∧
    (exportPdf env none gensummary).2 = ⟨false, none, 0, false⟩ ∧
    (serverPdfExport env none gensummary).1.status = 500 ∧
    (serverPdfExport env none gensummary).1.error = some "PDF generation failed" :=
  ⟨rfl, rfl, rfl, rfl⟩

/-- C5.  On each failure path after a successful launch — newPage,
setContent, or pdf generation throwing — the handler answers 500 via its
outer catch while the engine instance is still open: `browser.close()` sits
only on the success path, so the instance is not torn down on these exit
paths. -/
theorem browser_left_open_on_render_failure :
    ((exportPdf newPageFailEnv (some sampleForm) (some "s")).1.status = 500 ∧
      (exportPdf newPageFailEnv (some sampleForm) (some "s")).2.browserOpenAtEnd = true) ∧
    ((exportPdf setContentFailEnv (some sampleForm) (some "s")).1.status = 500 ∧
      (exportPdf setContentFailEnv (some sampleForm) (some "s")).2.browserOpenAtEnd = true) ∧
    ((exportPdf pdfFailEnv (some sampleForm) (some "s")).1.status = 500 ∧
      (exportPdf pdfFailEnv (some sampleForm) (some "s")).2.browserOpenAtEnd = true) ∧
    (exportPdf okEnv (some sampleForm) (some "s")).2.browserOpenAtEnd = false :=
  ⟨⟨rfl, rfl⟩, ⟨rfl, rfl⟩, ⟨rfl, rfl⟩, rfl⟩

/-- C6.  When the engine launch throws, the handler responds 500 with the
dedicated message "Failed to launch browser", attempts the launch exactly
once (no retry), and this message is produced on no other failure path, so
it distinguishes launch failure from every other render failure. -/
theorem launch_failure_distinct_500 (env : EngineEnv) (form : ResumeForm)
    (g : Option String) (msg : String) (h : env.launch = .error msg) :
    (exportPdf env (some form) g).1.status = 500 ∧
    (exportPdf env (some form) g).1.error = some "Failed to launch browser" ∧
    (exportPdf env (some form) g).2.launchAttempts = 1 ∧
    ∀ (env2 : EngineEnv) (form2 : ResumeForm) (g2 : Option String),
      env2.launch = .ok () →
      (exportPdf env2 (some form2) g2).1.error ≠ some "Failed to launch browser" := by
  refine ⟨by simp [exportPdf, h], by simp [exportPdf, h], by simp [exportPdf, h], ?_⟩
  intro env2 form2 g2 hok
  simp only [exportPdf, hok]
  cases hnp : env2.newPage with
  | error msg2 => simp
  | ok u =>
      cases hsc : env2.setContent with
      | error msg2 => simp
      | ok u2 =>
          cases hpdf : env2.pdfRender with
          | error msg2 => simp
          | ok bytes =>
              by_cases hb : bytes.length = 0
              · simp [hb]
              · simp [hb]

/-- C6 witness: the theorem applied to a concrete launch-failure
environment. -/
theorem launch_failure_distinct_500_witness :
    (exportPdf launchFailEnv (some sampleForm) (some "s")).1.error =
      some "Failed to launch browser" :=
  (launch_failure_distinct_500 launchFailEnv sampleForm (some "s")
    "spawn chromium ENOENT" rfl).2.1

/-- C9.  For every (possibly absent) name, the derived filename is a stem of
one to forty characters drawn from the alphanumeric/hyphen/underscore set,
followed by ".pdf" — i.e. it matches the claimed pattern of one to forty
characters of the class [A-Za-z0-9_-] and the ".pdf" suffix:
the fallback "resume" covers an empty or missing name, every other
character is replaced by an underscore, and the stem is truncated to forty
characters. -/
theorem deriveFileName_shape (name : Option String) :
    ∃ stem, deriveFileName name = stem ++ ".pdf" ∧
      1 ≤ stem.length ∧ stem.length ≤ 40 ∧
      ∀ c ∈ stem.data, (c.isAlphanum || c == '-' || c == '_') = true := by
  refine ⟨fileStem name, rfl, ?_, ?_, ?_⟩
  · have hbase : fileBase name ≠ "" := by
      unfold fileBase
      cases name with
      | none => simp
      | some s => by_cases hs : s = "" <;> simp [hs]
    have hne : (fileBase name).data ≠ [] := by
      intro hd
      apply hbase
      have h2 := congrArg String.mk hd
      simpa using h2
    show 1 ≤ (((fileBase name).data.map _).take 40).length
    rw [List.length_take]
    simp only [List.length_map]
    have := List.length_pos.mpr hne
    omega
  · show (((fileBase name).data.map _).take 40).length ≤ 40
    rw [List.length_take]
    exact min_le_left _ _
  · intro c hc
    have hc2 := List.take_subset 40 _ hc
    obtain ⟨a, _, ha⟩ := List.mem_map.mp hc2
    by_cases hp : (a.isAlphanum || a == '-' || a == '_') = true
    · rw [← ha, if_pos hp]
      exact hp
    · rw [← ha, if_neg (by simpa using hp)]
      decide
